import Mathlib

/-!
Shallow embedding of `src/include/array.h` (namespace `sigcpp`, class template
`array<T, N>`): a fixed-size array container with checked and unchecked
element access, fill, swap, capacity queries and forward/reverse iterators.

Modelling conventions:
* the storage `value_type values[N]` is a function `Fin N → T`;
* a C++ reference `T&` into the storage is modelled as its location, a
  `Fin N`; reading through the reference is `deref`, writing is `writeRef`;
* an operation whose precondition violation is undefined behaviour returns
  `Option` with `none` marking the undefined case;
* the checked access `at` returns `Except cppThrown (Fin N)`; the thrown
  value of the source, `throw new std::out_of_range("array index out of
  range")`, is a pointer to a heap-allocated `std::out_of_range`, recorded
  as `cppThrown.ptrOutOfRange`; a thrown `std::out_of_range` object itself
  (what a `catch (const std::out_of_range&)` handler receives) would be
  `cppThrown.outOfRange`.
-/

namespace sigcpp

/-- What a C++ `throw` expression of the checked-access path can deliver:
either an `std::out_of_range` object (caught by handlers for that type),
or a pointer to a heap-allocated `std::out_of_range` (the dynamic type of
`new std::out_of_range(msg)`, caught only by pointer handlers). -/
inductive cppThrown where
  | outOfRange (msg : String)
  | ptrOutOfRange (msg : String)
deriving DecidableEq, Repr

/-- `template<typename T, std::size_t N> struct array { value_type values[N]; }` -/
structure array (T : Type) (N : Nat) where
  values : Fin N → T

variable {T : Type} {N : Nat}

/-- `void fill(const T& u) { std::fill_n(values, N, u); }` -/
def array.fill (a : array T N) (u : T) : array T N :=
  ⟨fun _ => u⟩

/-- `void swap(array& a) { std::swap_ranges(values, values + N, a.values); }`
modelled as returning the pair (this, a) after the exchange. -/
def array.swap (a b : array T N) : array T N × array T N :=
  (⟨b.values⟩, ⟨a.values⟩)

/-- `constexpr bool empty() const noexcept { return N == 0; }` -/
def array.empty (a : array T N) : Bool :=
  N == 0

/-- `constexpr size_type size() const noexcept { return N; }` -/
def array.size (a : array T N) : Nat :=
  N

/-- `constexpr size_type max_size() const noexcept { return N; }` -/
def array.max_size (a : array T N) : Nat :=
  N

/-- `constexpr reference operator[](size_type pos) { return values[pos]; }` —
unchecked: the returned reference is location `pos` of the storage; `none`
marks the undefined behaviour when `pos >= N`. -/
def array.subscript (a : array T N) (pos : Nat) : Option (Fin N) :=
  if h : pos < N then some ⟨pos, h⟩ else none

/-- `constexpr reference at(size_type pos)`: `if (pos < N) return values[pos];
else throw new std::out_of_range("array index out of range");` -/
def array.at (a : array T N) (pos : Nat) : Except cppThrown (Fin N) :=
  if h : pos < N then .ok ⟨pos, h⟩
  else .error (.ptrOutOfRange "array index out of range")

/-- State-passing form of the body of `at`: the body only tests `pos < N`
and either returns the reference `values[pos]` or throws; no statement of
the body writes to `values`, so the exit state is the entry state. -/
def array.atRun (a : array T N) (pos : Nat) : Except cppThrown (Fin N) × array T N :=
  if h : pos < N then (.ok ⟨pos, h⟩, a)
  else (.error (.ptrOutOfRange "array index out of range"), a)

/-- Reading through a reference into the storage. -/
def array.deref (a : array T N) (i : Fin N) : T :=
  a.values i

/-- Writing through a reference into the storage. -/
def array.writeRef (a : array T N) (i : Fin N) (v : T) : array T N :=
  ⟨fun j => if j = i then v else a.values j⟩

/-- `constexpr reference front() { return values[0]; }` — unchecked,
undefined (`none`) for `N = 0`. -/
def array.front (a : array T N) : Option (Fin N) :=
  a.subscript 0

/-- `constexpr reference back() { return empty() ? front() : values[N-1]; }`
(the mutable overload, a runtime branch). -/
def array.back (a : array T N) : Option (Fin N) :=
  if a.empty then a.front else a.subscript (N - 1)

/-- `constexpr const_reference back() const { if constexpr (N == 0) return
front(); else return values[N - 1]; }` (the const overload, a compile-time
branch). -/
def array.back_const (a : array T N) : Option (Fin N) :=
  if N = 0 then a.front else a.subscript (N - 1)

/-- `constexpr pointer data() noexcept { if constexpr (N == 0) return
nullptr; else return values; }` — the pointer to the first storage slot is
modelled as offset `0`, `nullptr` as `none`. -/
def array.data (a : array T N) : Option Nat :=
  if N = 0 then none else some 0

/-- Modelled from the spec: the iterator type of `array_iterator.h` is not
under src/ (only `array.h`, which constructs it, is). Per the spec an
iterator is "a lightweight cursor wrapping a raw position reference into
the array's storage" with equality comparison, and for `N = 0` the
iterator-returning operations yield "a canonical empty-position value that
compares equal to itself". `dflt` is the default-constructed
(empty-position) iterator, `ptr i` wraps the pointer `values + i`. -/
inductive array_iterator where
  | dflt
  | ptr (i : Nat)
deriving DecidableEq, Repr

/-- `constexpr iterator begin() noexcept { if constexpr (N == 0) return
iterator(); else return iterator(values); }` -/
def array.begin (a : array T N) : array_iterator :=
  if N = 0 then .dflt else .ptr 0

/-- `constexpr iterator end() noexcept { if constexpr (N == 0) return
iterator(); else return iterator(values + N); }` (`end` is reserved in
Lean, hence the trailing underscore). -/
def array.end_ (a : array T N) : array_iterator :=
  if N = 0 then .dflt else .ptr N

/-- `constexpr const_iterator cbegin() const noexcept { return begin(); }` -/
def array.cbegin (a : array T N) : array_iterator :=
  a.begin

/-- `constexpr const_iterator cend() const noexcept { return end(); }` -/
def array.cend (a : array T N) : array_iterator :=
  a.end_

/-- `using reverse_iterator = std::reverse_iterator<iterator>`: a generic
adaptor holding the underlying forward iterator. -/
structure reverse_iterator where
  base : array_iterator
deriving DecidableEq, Repr

/-- `constexpr reverse_iterator rbegin() noexcept { return
reverse_iterator(end()); }` -/
def array.rbegin (a : array T N) : reverse_iterator :=
  ⟨a.end_⟩

/-- `constexpr reverse_iterator rend() noexcept { return
reverse_iterator(begin()); }` -/
def array.rend (a : array T N) : reverse_iterator :=
  ⟨a.begin⟩

/-- `constexpr const_reverse_iterator crbegin() const noexcept { return
rbegin(); }` -/
def array.crbegin (a : array T N) : reverse_iterator :=
  a.rbegin

/-- `constexpr const_reverse_iterator crend() const noexcept { return
rend(); }` -/
def array.crend (a : array T N) : reverse_iterator :=
  a.rend

/-- Modelled from the spec: advancing the forward iterator ("forward
movement by fixed offsets"); advancing the empty-position iterator is
undefined and never reached by a bounded traversal. -/
def itNext : array_iterator → array_iterator
  | .dflt => .dflt
  | .ptr i => .ptr (i + 1)

/-- Modelled from the spec: dereferencing the forward iterator
("dereference to the pointed-to element"); out-of-range positions and the
empty-position iterator are undefined (`none`). -/
def itDeref (a : array T N) : array_iterator → Option T
  | .dflt => none
  | .ptr i => if h : i < N then some (a.values ⟨i, h⟩) else none

/-- The element sequence visited by repeatedly dereferencing and advancing
a forward iterator until it compares equal to `stop`, with fuel bounding
the number of steps. -/
def itTraverse (a : array T N) : array_iterator → array_iterator → Nat → List (Option T)
  | _, _, 0 => []
  | it, stop, fuel + 1 =>
    if it = stop then []
    else itDeref a it :: itTraverse a (itNext it) stop fuel

/-- Modelled from the spec: "advancing a reverse iterator moves the
underlying forward iterator backward". -/
def revNext : reverse_iterator → reverse_iterator
  | ⟨.dflt⟩ => ⟨.dflt⟩
  | ⟨.ptr i⟩ => ⟨.ptr (i - 1)⟩

/-- Modelled from the spec: "dereferencing it yields the element
immediately before the forward iterator's current position"; undefined
(`none`) when no such element exists. -/
def revDeref (a : array T N) : reverse_iterator → Option T
  | ⟨.dflt⟩ => none
  | ⟨.ptr 0⟩ => none
  | ⟨.ptr (i + 1)⟩ => itDeref a (.ptr i)

/-- The element sequence visited by a reverse iterator run from `it`
until it compares equal to `stop`. -/
def revTraverse (a : array T N) : reverse_iterator → reverse_iterator → Nat → List (Option T)
  | _, _, 0 => []
  | it, stop, fuel + 1 =>
    if it = stop then []
    else revDeref a it :: revTraverse a (revNext it) stop fuel

/-- A concrete `array<int, 3> = {1, 2, 3}` used by witnesses. -/
def arr3 : array Int 3 :=
  ⟨![1, 2, 3]⟩

/-- A concrete `array<int, 0>` used by witnesses. -/
def arr0 : array Int 0 :=
  ⟨fun i => i.elim0⟩

/-- Traversing from `ptr i` to `ptr N` with `fuel` steps, when `i + fuel = N`,
dereferences exactly the positions `i, i+1, ..., N-1` in order. -/
theorem itTraverse_ptr (a : array T N) :
    ∀ (fuel i : Nat), i + fuel = N →
      itTraverse a (.ptr i) (.ptr N) fuel
        = (List.range' i fuel).map (fun j => itDeref a (.ptr j)) := by
  intro fuel
  induction fuel with
  | zero => intro i _; rfl
  | succ fuel ih =>
    intro i h
    have hi : i ≠ N := by omega
    have hne : (array_iterator.ptr i) ≠ (array_iterator.ptr N) := by
      simp [hi]
    simp only [itTraverse, if_neg hne, itNext]
    rw [ih (i + 1) (by omega)]
    rfl

/-- Dereferencing at each position of `range N` yields the stored values in
index order. -/
theorem range_map_itDeref (a : array T N) :
    (List.range N).map (fun j => itDeref a (.ptr j))
      = List.ofFn (fun i : Fin N => some (a.values i)) := by
  apply List.ext_getElem
  · simp
  · intro i h1 h2
    simp only [List.getElem_map, List.getElem_range, List.getElem_ofFn]
    have hi : i < N := by simpa using h2
    simp [itDeref, hi]

/-- A reverse traversal from `⟨ptr k⟩` down to `⟨ptr 0⟩`, for `k ≤ N`,
dereferences positions `k-1, k-2, ..., 0`: the reverse of the forward order. -/
theorem revTraverse_ptr (a : array T N) :
    ∀ (k : Nat), k ≤ N →
      revTraverse a ⟨.ptr k⟩ ⟨.ptr 0⟩ k
        = ((List.range k).map (fun j => itDeref a (.ptr j))).reverse := by
  intro k
  induction k with
  | zero => intro _; rfl
  | succ k ih =>
    intro h
    have hne : (reverse_iterator.mk (.ptr (k + 1))) ≠ ⟨.ptr 0⟩ := by
      simp
    simp only [revTraverse, if_neg hne, revDeref, revNext, Nat.add_sub_cancel]
    rw [ih (by omega)]
    rw [List.range_succ, List.map_append, List.reverse_append]
    rfl

/-- C1: the claim says `at(pos)` for `pos ∉ [0, N)` fails with an OutOfRange
error. The source executes `throw new std::out_of_range("array index out of
range")`, so the thrown value is a pointer to a heap-allocated
`std::out_of_range`, not an `std::out_of_range` object: on
`array<int, 3> = {1, 2, 3}`, `at(3)` delivers `ptrOutOfRange`, never
`outOfRange msg` for any message, while `at(2)` succeeds with the reference
to index 2. -/
theorem at_oob_throws_pointer :
    arr3.at 3 = .error (.ptrOutOfRange "array index out of range")
      ∧ (∀ msg, arr3.at 3 ≠ .error (.outOfRange msg))
      ∧ arr3.at 2 = .ok ⟨2, by omega⟩ := by
  refine ⟨rfl, ?_, rfl⟩
  intro msg hmsg
  simp [array.at] at hmsg

/-- C2: for every valid `pos < N`, `at(pos)` and `operator[](pos)` return
the same reference (storage location `pos`), and a write through that
reference is observable by reading through it again. -/
theorem at_subscript_same_reference (a : array T N) (pos : Nat) (h : pos < N)
    (v : T) :
    a.at pos = .ok ⟨pos, h⟩
      ∧ a.subscript pos = some ⟨pos, h⟩
      ∧ (a.writeRef ⟨pos, h⟩ v).deref ⟨pos, h⟩ = v
      ∧ (a.writeRef ⟨pos, h⟩ v).values ⟨pos, h⟩ = v := by
  refine ⟨?_, ?_, ?_, ?_⟩ <;>
    simp [array.at, array.subscript, array.writeRef, array.deref, h]

/-- Witness for C2 at `array<int, 3> = {1, 2, 3}`, `pos = 1`, `v = 9`. -/
theorem at_subscript_same_reference_witness :
    arr3.at 1 = .ok ⟨1, by omega⟩
      ∧ arr3.subscript 1 = some ⟨1, by omega⟩
      ∧ (arr3.writeRef ⟨1, by omega⟩ 9).deref ⟨1, by omega⟩ = 9
      ∧ (arr3.writeRef ⟨1, by omega⟩ 9).values ⟨1, by omega⟩ = 9 :=
  at_subscript_same_reference arr3 1 (by omega) 9

/-- C3: the traversal from `begin()` to `end()` (with `N` steps of fuel)
visits exactly the `N` stored elements in index order, the traversal from
`rbegin()` to `rend()` visits the same elements in exact reverse order, and
re-calling `begin()` yields the same starting iterator. -/
theorem iteration_invariant (a : array T N) :
    itTraverse a a.begin a.end_ N = List.ofFn (fun i : Fin N => some (a.values i))
      ∧ revTraverse a a.rbegin a.rend N
          = (List.ofFn (fun i : Fin N => some (a.values i))).reverse
      ∧ a.begin = a.begin := by
  refine ⟨?_, ?_, rfl⟩
  · match N, a with
    | 0, a => rfl
    | (n + 1), a =>
      have hne : (n + 1) ≠ 0 := by omega
      simp only [array.begin, array.end_, if_neg hne]
      rw [itTraverse_ptr a (n + 1) 0 (by omega), ← List.range_eq_range',
        range_map_itDeref]
  · match N, a with
    | 0, a => rfl
    | (n + 1), a =>
      have hne : (n + 1) ≠ 0 := by omega
      simp only [array.rbegin, array.rend, array.begin, array.end_, if_neg hne]
      rw [revTraverse_ptr a (n + 1) (by omega), range_map_itDeref]

/-- C4: `fill(v)` overwrites every element at every index with `v`, and for
`N = 0` it is the identity (a no-op) and signals no failure. -/
theorem fill_overwrites_all (a : array T N) (v : T) :
    (∀ i, (a.fill v).values i = v) ∧ (N = 0 → a.fill v = a) := by
  constructor
  · intro i; rfl
  · intro h
    subst h
    cases a with
    | mk f =>
      unfold array.fill
      congr
      funext i
      exact i.elim0

/-- Witness for C4: filling `{1, 2, 3}` puts 9 at index 0, and filling the
zero-length instance is the identity. -/
theorem fill_overwrites_all_witness :
    (arr3.fill 9).values ⟨0, by omega⟩ = 9 ∧ arr0.fill 9 = arr0 :=
  ⟨(fill_overwrites_all arr3 9).1 ⟨0, by omega⟩,
    (fill_overwrites_all arr0 9).2 rfl⟩

/-- C5: after `a.swap(b)`, `a`'s element at each index `i` equals `b`'s
pre-swap element at `i`, and vice versa. -/
theorem swap_exchanges (a b : array T N) :
    ∀ i, (a.swap b).1.values i = b.values i ∧ (a.swap b).2.values i = a.values i :=
  fun _ => ⟨rfl, rfl⟩

/-- C6: for `N = 0`, `empty()` is true, `size()` is 0, `begin() == end()`
(also the const and reverse variants), and `data()` is the null indicator. -/
theorem zero_length_behavior (a : array T 0) :
    a.empty = true ∧ a.size = 0 ∧ a.begin = a.end_ ∧ a.cbegin = a.cend
      ∧ a.rbegin = a.rend ∧ a.crbegin = a.crend ∧ a.data = none :=
  ⟨rfl, rfl, rfl, rfl, rfl, rfl, rfl⟩

/-- C7: for `N > 0`, `front()` returns the reference to index 0 and
`back()` the reference to index `N - 1`. -/
theorem front_back_refs (a : array T N) (h : 0 < N) :
    a.front = some ⟨0, h⟩ ∧ a.back = some ⟨N - 1, Nat.sub_lt h Nat.one_pos⟩ := by
  have hne : N ≠ 0 := Nat.pos_iff_ne_zero.mp h
  constructor
  · simp [array.front, array.subscript, h]
  · simp [array.back, array.empty, hne, array.subscript, Nat.sub_lt h Nat.one_pos]

/-- Witness for C7 at `array<int, 3> = {1, 2, 3}`. -/
theorem front_back_refs_witness :
    arr3.front = some ⟨0, by omega⟩ ∧ arr3.back = some ⟨2, by omega⟩ :=
  front_back_refs arr3 (by omega)

/-- C8: `empty()` is true exactly when `N = 0`, and `size()` and
`max_size()` both return `N`, for every instance regardless of contents. -/
theorem capacity_queries (a : array T N) :
    (a.empty = true ↔ N = 0) ∧ a.size = N ∧ a.max_size = N := by
  refine ⟨?_, rfl, rfl⟩
  simp [array.empty]

/-- C9: a failing call to `at` (any `pos ≥ N`) reports an error and leaves
every element of the array unchanged: the body of `at` performs no write. -/
theorem at_failure_preserves_state (a : array T N) (pos : Nat) (h : N ≤ pos) :
    (∃ e, (a.atRun pos).1 = .error e) ∧ (a.atRun pos).2 = a := by
  have hlt : ¬ pos < N := Nat.not_lt.mpr h
  constructor
  · exact ⟨.ptrOutOfRange "array index out of range", by simp [array.atRun, hlt]⟩
  · simp [array.atRun, hlt]

/-- Witness for C9 at `array<int, 3> = {1, 2, 3}`, `pos = 5`. -/
theorem at_failure_preserves_state_witness :
    (∃ e, (arr3.atRun 5).1 = .error e) ∧ (arr3.atRun 5).2 = arr3 :=
  at_failure_preserves_state arr3 5 (by omega)

/-- C10: for `N > 0` the mutable overload of `back()` (runtime branch
`empty() ? front() : values[N-1]`) and the const overload (compile-time
branch on `N == 0`) return the same reference, `values[N-1]`. -/
theorem back_overloads_agree (a : array T N) (h : 0 < N) :
    a.back = a.back_const
      ∧ a.back = some ⟨N - 1, Nat.sub_lt h Nat.one_pos⟩ := by
  have hne : N ≠ 0 := Nat.pos_iff_ne_zero.mp h
  constructor
  · simp [array.back, array.back_const, array.empty, hne]
  · simp [array.back, array.empty, hne, array.subscript, Nat.sub_lt h Nat.one_pos]

/-- Witness for C10 at `array<int, 3> = {1, 2, 3}`. -/
theorem back_overloads_agree_witness :
    arr3.back = arr3.back_const ∧ arr3.back = some ⟨2, by omega⟩ :=
  back_overloads_agree arr3 (by omega)

end sigcpp
